import Mathlib

/-!
Shallow embedding of the table-reconstruction core of the finAnalyzer
repository (src/sec/table.py and src/sec/financial_tables.py), together
with theorems settling the specification claims about it.

Strings are modelled as `List Char`.  Python's `re` scanning loops are
embedded as fuel-based scanners specialised to the exact patterns used by
the source; the fuel is always large enough to traverse the whole input,
so the scanners compute exactly the `re.findall` results on any input.
-/

deriving instance DecidableEq for Except

namespace FinAnalyzer

/-- Python whitespace, as used by `str.strip` and by the regex class `\s`
(ASCII range): space, tab, newline, carriage return, vertical tab, form feed. -/
def isPySpace (c : Char) : Bool :=
  c == ' ' || c == '\t' || c == '\n' || c == '\r' || c == '\x0b' || c == '\x0c'

/-- Python `str.strip()`: drop leading and trailing whitespace. -/
def pyStrip (s : List Char) : List Char :=
  ((s.dropWhile isPySpace).reverse.dropWhile isPySpace).reverse

/-- Python `s.find(pat)` (successful case): index of the first occurrence of
`pat` in `s`, `none` when `pat` does not occur (Python returns -1 there). -/
def strFind : List Char → List Char → Option Nat
  | [], pat => if pat = [] then some 0 else none
  | c :: tl, pat =>
    if pat.isPrefixOf (c :: tl) then some 0
    else (strFind tl pat).map (· + 1)

/-- Specification-side predicate: `pat` occurs in `s` at position `i`. -/
def occursAt (s pat : List Char) (i : Nat) : Prop :=
  pat.isPrefixOf (s.drop i) = true

instance (s pat : List Char) (i : Nat) : Decidable (occursAt s pat i) := by
  unfold occursAt; infer_instance

/-- Specification-side predicate: `i` is the index of the first occurrence of
`pat` in `s`. -/
def isFirstOccurrence (s pat : List Char) (i : Nat) : Prop :=
  occursAt s pat i ∧ ∀ k < i, ¬ occursAt s pat k

instance (s pat : List Char) (i : Nat) : Decidable (isFirstOccurrence s pat i) := by
  unfold isFirstOccurrence; infer_instance

/-- Helper for the lazy `.*?` in the row and cell regexes: the smallest `m`
such that `close` starts at offset `m` of `s` and none of the first `m`
characters is a newline (`.` does not match newline), `none` when no such
offset exists. -/
def findNoNl (close : List Char) : List Char → Option Nat
  | [] => if close = [] then some 0 else none
  | c :: tl =>
    if close.isPrefixOf (c :: tl) then some 0
    else if c = '\n' then none
    else (findNoNl close tl).map (· + 1)

def trOpenTok : List Char := "<tr".data
def trCloseTok : List Char := "</tr>".data

/-- Embedding of `re.findall("<tr.*?</tr>", table_content)` from
`Table.read_tablecontent`: scan left to right; at each position a match is
the literal `<tr`, a lazy newline-free middle, and the literal `</tr>`;
scanning resumes after the match.  `fuel` bounds the scan (the top-level
wrapper passes the input length, which is enough since every step consumes
at least one character). -/
def findallTrAux : Nat → List Char → List (List Char)
  | 0, _ => []
  | _, [] => []
  | fuel + 1, c :: tl =>
    if trOpenTok.isPrefixOf (c :: tl) then
      match findNoNl trCloseTok ((c :: tl).drop 3) with
      | some m =>
          ((c :: tl).take (3 + m + 5)) :: findallTrAux fuel ((c :: tl).drop (3 + m + 5))
      | none => findallTrAux fuel tl
    else findallTrAux fuel tl

def findallTr (s : List Char) : List (List Char) :=
  findallTrAux s.length s

def tdOpenTok : List Char := "<td".data
def tdCloseTok : List Char := "</td>".data
def thOpenTok : List Char := "<th".data
def thCloseTok : List Char := "</th>".data

/-- Embedding of
`re.findall("((?<=<td).*?(?=</td>))|((?<=<th).*?(?=</th>))", html_row)`
from `Table._htmlrow_to_rowobj`.  At scan position `p` the first
alternative matches when the three preceding characters are `<td` (the
lookbehind) and a lazy newline-free middle is followed by `</td>` (the
lookahead, not consumed); the second alternative is tried with `<th`.
`findall` returns the group pair, the unmatched group being empty, and
resumes at the match end (advancing one position for an empty match). -/
def findallCellsAux (s : List Char) : Nat → Nat → List (List Char × List Char)
  | 0, _ => []
  | fuel + 1, p =>
    if p < s.length then
      if 3 ≤ p ∧ tdOpenTok.isPrefixOf (s.drop (p - 3)) then
        match findNoNl tdCloseTok (s.drop p) with
        | some m => ((s.drop p).take m, []) :: findallCellsAux s fuel (p + max m 1)
        | none => findallCellsAux s fuel (p + 1)
      else if 3 ≤ p ∧ thOpenTok.isPrefixOf (s.drop (p - 3)) then
        match findNoNl thCloseTok (s.drop p) with
        | some m => ([], (s.drop p).take m) :: findallCellsAux s fuel (p + max m 1)
        | none => findallCellsAux s fuel (p + 1)
      else findallCellsAux s fuel (p + 1)
    else []

def findallCells (s : List Char) : List (List Char × List Char) :=
  findallCellsAux s (s.length + 1) 0

/-- For the span regex `(?<=rowspan:)\s*[0-9]+(?=[^%d])`: given that the
text after the scan position starts with `w` whitespace characters followed
by a maximal run of `d ≥ 1` digits (`rest` is the text with the whitespace
already dropped), return the number of digits the greedy, backtracking
`[0-9]+` keeps so that the lookahead `[^%d]` holds: the full run `d` when
the next character exists and is neither `%` nor `d`, otherwise `d - 1`
(the lookahead then sees the last digit) provided `d ≥ 2`, otherwise no
match. -/
def spanDigits (rest : List Char) (d : Nat) : Option Nat :=
  match rest[d]? with
  | some c => if c = '%' ∨ c = 'd' then (if 2 ≤ d then some (d - 1) else none) else some d
  | none => if 2 ≤ d then some (d - 1) else none

/-- Embedding of `re.findall("(?<=tok)\s*[0-9]+(?=[^%d])", s)` from
`Table._get_span_options`, where `tok` is `rowspan:` or `colspan:`.  A match
can only start right after an occurrence of `tok` (the lookbehind); the
match text is the whitespace plus the kept digits. -/
def findallSpanAux (tok s : List Char) : Nat → Nat → List (List Char)
  | 0, _ => []
  | fuel + 1, p =>
    if p < s.length then
      if tok.length ≤ p ∧ tok.isPrefixOf (s.drop (p - tok.length)) then
        let rest := s.drop p
        let w := (rest.takeWhile isPySpace).length
        let rest2 := rest.drop w
        let d := (rest2.takeWhile Char.isDigit).length
        if d = 0 then findallSpanAux tok s fuel (p + 1)
        else
          match spanDigits rest2 d with
          | some k => (rest.take (w + k)) :: findallSpanAux tok s fuel (p + w + k)
          | none => findallSpanAux tok s fuel (p + 1)
      else findallSpanAux tok s fuel (p + 1)
    else []

def findallSpan (tok s : List Char) : List (List Char) :=
  findallSpanAux tok s (s.length + 1) 0

/-- Python `int` on a string of decimal digits. -/
def digitsToNat (s : List Char) : Nat :=
  s.foldl (fun a c => a * 10 + (c.toNat - 48)) 0

/-- Error outcomes of the core; each constructor corresponds to a failure
site in the source (all are uncaught exceptions there).
`invalidSpan`: the assertions in `Table._get_span_options`;
`tableNotFound`: the assertions in `SECTableReader._extract_raw_table`;
`columnMismatch`: `assert ind_col == num_col` in `Table.setup_linked_rows`;
`linkAssert`: the `multi_row_struct`-vs-`link_indices` assertions in
`Table.setup_linked_rows`;
`cellAssert`: the assertions in `Table._htmlrow_to_rowobj` and
`Row.get_cell`;
`indexError`: an out-of-range numpy/list access. -/
inductive TblErr where
  | invalidSpan
  | tableNotFound
  | columnMismatch
  | linkAssert
  | cellAssert
  | indexError
deriving DecidableEq, Repr

def rowspanTok : List Char := "rowspan:".data
def colspanTok : List Char := "colspan:".data

/-- One half of `Table._get_span_options`: the span for one token.  If the
token does not occur the default is 1; otherwise the regex must yield
exactly one match whose stripped integer value must be at least 1, any
other outcome being an assertion failure. -/
def get_span_one (tok s : List Char) : Except TblErr Nat :=
  match strFind s tok with
  | none => .ok 1
  | some _ =>
    match findallSpan tok s with
    | [m] =>
      let n := digitsToNat (pyStrip m)
      if 1 ≤ n then .ok n else .error .invalidSpan
    | _ => .error .invalidSpan

/-- Embedding of `Table._get_span_options`: extract `rowspan` then
`colspan` from a cell's option string. -/
def get_span_options (s : List Char) : Except TblErr (Nat × Nat) := do
  let r ← get_span_one rowspanTok s
  let c ← get_span_one colspanTok s
  return (r, c)

inductive CellType where
  | NORMAL
  | HEADER
deriving DecidableEq, Repr

/-- Embedding of the `Cell` class.  The Python object reference stored in
`linked_cell` is represented by the `(row, cell)` index pair through which
the source obtains it (`self.rows[link_r].get_cell(link_c)`). -/
structure Cell where
  type : CellType := .NORMAL
  row_span : Nat := 1
  col_span : Nat := 1
  data : Option (List Char) := none
  linked_cell : Option (Nat × Nat) := none
deriving DecidableEq, Repr

/-- Embedding of `Cell.link_to_cell`: copy type and spans from the owner,
clear the data, and keep the reference (as the owner's index pair). -/
def link_to_cell (owner : Cell) (idx : Nat × Nat) : Cell :=
  { type := owner.type, row_span := owner.row_span, col_span := owner.col_span,
    data := none, linked_cell := some idx }

/-- Embedding of the `Row` class: a list of cells. -/
structure Row where
  cells : List Cell := []
deriving DecidableEq, Repr

/-- Embedding of `Row.get_cell`: asserts the index is in range. -/
def Row.get_cell (r : Row) (k : Nat) : Except TblErr Cell :=
  match r.cells[k]? with
  | some c => .ok c
  | none => .error .cellAssert

/-- Build one cell in `Table._htmlrow_to_rowobj` from the matched group:
extract spans, assert the group contains `>`, and take the stripped text
after the first `>` as the data. -/
def build_cell (content : List Char) (ctype : CellType) : Except TblErr Cell := do
  let (rs, cs) ← get_span_options content
  match strFind content ['>'] with
  | none => .error .cellAssert
  | some k =>
    return { type := ctype, row_span := rs, col_span := cs,
             data := some (pyStrip (content.drop (k + 1))), linked_cell := none }

/-- Embedding of `Table._htmlrow_to_rowobj`: for each group pair the `th`
alternative gives a HEADER cell, the `td` alternative a NORMAL cell; a pair
with both groups empty fails the `assert len(s_td) > 0`. -/
def htmlrow_to_rowobj (html_row : List Char) : Except TblErr Row := do
  let cells ← (findallCells html_row).mapM (fun p =>
    if p.2.length > 0 then build_cell p.2 .HEADER
    else if p.1.length > 0 then build_cell p.1 .NORMAL
    else .error .cellAssert)
  return { cells := cells }

/-- Embedding of the `Table` class state: the raw rows and the linked rows
(`None` until `setup_linked_rows` assigns them). -/
structure Table where
  rows : List Row := []
  rows_linked : Option (List Row) := none
deriving DecidableEq, Repr

/-- Embedding of `Table.read_tablecontent`: split the content into
`<tr...</tr>` matches and append one parsed row per match. -/
def read_tablecontent (t : Table) (content : List Char) : Except TblErr Table := do
  let newRows ← (findallTr content).mapM htmlrow_to_rowobj
  return { t with rows := t.rows ++ newRows }

/-- Embedding of `Table.get_num_of_columns`: the sum of the column spans of
the first row's cells (the source accumulates them in an index loop), 0
when there are no rows. -/
def get_num_of_columns (t : Table) : Nat :=
  match t.rows with
  | [] => 0
  | r :: _ => r.cells.foldl (fun acc c => acc + c.col_span) 0

/-- The `multi_row_struct` numpy matrix of `Table.setup_linked_rows`,
row-major, entries: -1 = not linked to any previous row, -2 = occupied by a
previous row's cell but not its first column, n ≥ 0 = linked, the owner
being `link_indices[n]`. -/
def matGet (m : List (List Int)) (i j : Nat) : Option Int :=
  m[i]?.bind (fun row => row[j]?)

/-- Bounds-checked write to the matrix; an out-of-range index is a numpy
`IndexError`. -/
def matSet (m : List (List Int)) (i j : Nat) (v : Int) : Except TblErr (List (List Int)) :=
  match m[i]? with
  | none => .error .indexError
  | some row =>
    if j < row.length then .ok (m.set i (row.set j v))
    else .error .indexError

/-- The registration double loop of `Table.setup_linked_rows`: for a cell
at row `i`, column cursor `indCol`, with `row_span > 1`, mark
`multi_row_struct[i+p, indCol+q]` for `p ∈ [1, row_span)`, `q ∈ [0,
col_span)` with the new link index at `q = 0` and -2 otherwise. -/
def markMultiRow (m0 : List (List Int)) (i indCol rowSpan colSpan : Nat) (linkIdx : Int) :
    Except TblErr (List (List Int)) :=
  (List.range' 1 (rowSpan - 1)).foldlM (fun m p =>
    (List.range colSpan).foldlM (fun m2 q =>
      matSet m2 (i + p) (indCol + q) (if q = 0 then linkIdx else -2)) m) m0

/-- The two cursor-advance loops of `Table.setup_linked_rows`: starting at
`cur`, advance past consecutive entries of `mrow` that are not -1, for at
most `fuel` steps (the loops run the index over `range(num_col)` resp.
`range(ind_col, num_col)`, so the wrappers pass `num_col - cur`). -/
def skipAux : Nat → List Int → Nat → Nat
  | 0, _, cur => cur
  | n + 1, mrow, cur =>
    if mrow.getD cur 0 = -1 then cur else skipAux n mrow (cur + 1)

def skipLinkedFrom (mrow : List Int) (cur numCol : Nat) : Nat :=
  skipAux (numCol - cur) mrow cur

/-- The mutable loop state of `Table.setup_linked_rows`: the matrix and the
`link_indices` side table of `(row, cell)` owner positions. -/
structure LinkSt where
  m : List (List Int)
  link_indices : List (Nat × Nat)
deriving DecidableEq, Repr

/-- Emit a linked placeholder for matrix value `v ≥ 0`: assert
`v < len(link_indices)`, look the owner up through `rows` (as the source
does via `self.rows[link_r].get_cell(link_c)`) and build the linked cell. -/
def makeLinkedCell (rows : List Row) (li : List (Nat × Nat)) (v : Int) :
    Except TblErr Cell :=
  if h : v.toNat < li.length then
    let idx := li.get ⟨v.toNat, h⟩
    match rows[idx.1]? with
    | none => .error .indexError
    | some r =>
      match r.get_cell idx.2 with
      | .error e => .error e
      | .ok owner => .ok (link_to_cell owner idx)
  else .error .linkAssert

/-- The body of the per-cell loop of `Table.setup_linked_rows` for the
`j`-th cell of raw row `i`: register a multi-row cell in the matrix, then
append either the raw cell itself (cursor column unmarked) or a linked
placeholder (marked — unreachable here in practice since the cursor always
sits on a -1 column), advance the cursor by the cell's column span and past
any following marked columns. -/
def processCell (rows : List Row) (numCol i j : Nat) (cell : Cell)
    (st : LinkSt) (indCol : Nat) (acc : List Cell) :
    Except TblErr (LinkSt × Nat × List Cell) :=
  let reg : Except TblErr LinkSt :=
    if cell.row_span > 1 then
      match markMultiRow st.m i indCol cell.row_span cell.col_span
          (Int.ofNat st.link_indices.length) with
      | .error e => .error e
      | .ok m => .ok { m := m, link_indices := st.link_indices ++ [(i, j)] }
    else .ok st
  match reg with
  | .error e => .error e
  | .ok st1 =>
    match matGet st1.m i indCol with
    | none => .error .indexError
    | some v =>
      let newCell : Except TblErr Cell :=
        if v = -1 then .ok cell
        else if 0 ≤ v then makeLinkedCell rows st1.link_indices v
        else .error .linkAssert
      match newCell with
      | .error e => .error e
      | .ok c2 =>
        let indCol2 := indCol + cell.col_span
        let indCol3 := skipLinkedFrom (st1.m.getD i []) indCol2 numCol
        .ok (st1, indCol3, acc ++ [c2])

/-- The per-cell loop of `Table.setup_linked_rows`, over the remaining
cells of raw row `i` starting at cell index `j`. -/
def processCells (rows : List Row) (numCol i : Nat) :
    List Cell → Nat → LinkSt → Nat → List Cell →
    Except TblErr (LinkSt × Nat × List Cell)
  | [], _, st, indCol, acc => .ok (st, indCol, acc)
  | c :: cs, j, st, indCol, acc =>
    match processCell rows numCol i j c st indCol acc with
    | .error e => .error e
    | .ok (st2, ind2, acc2) => processCells rows numCol i cs (j + 1) st2 ind2 acc2

/-- The head of the row-loop body of `Table.setup_linked_rows`: if
`multi_row_struct[i, 0]` is non-negative the first cell of the linked row
is a placeholder; then the cursor is advanced past the leading marked
columns and the row's own cells are consumed. -/
def linkRowCore (rows : List Row) (numCol i : Nat) (row_i : Row) (st : LinkSt) :
    Except TblErr (LinkSt × Nat × List Cell) :=
  let headRes : Except TblErr (List Cell) :=
    match matGet st.m i 0 with
    | none => .error .indexError
    | some v =>
      if 0 ≤ v then
        match makeLinkedCell rows st.link_indices v with
        | .error e => .error e
        | .ok c => .ok [c]
      else .ok []
  match headRes with
  | .error e => .error e
  | .ok headCells =>
    let indCol := skipLinkedFrom (st.m.getD i []) 0 numCol
    processCells rows numCol i row_i.cells 0 st indCol headCells

/-- One full iteration of the row loop of `Table.setup_linked_rows`: after
the row's own cells are consumed the cursor must equal `num_col`
(`assert ind_col == num_col`), and the accumulated cells become the linked
row. -/
def linkRow (rows : List Row) (numCol i : Nat) (row_i : Row) (st : LinkSt) :
    Except TblErr (LinkSt × Row) :=
  match linkRowCore rows numCol i row_i st with
  | .error e => .error e
  | .ok (st2, indF, cells) =>
    if indF = numCol then .ok (st2, { cells := cells })
    else .error .columnMismatch

/-- The row loop of `Table.setup_linked_rows`, appending one linked row per
raw row. -/
def linkRowsLoop (rows : List Row) (numCol : Nat) :
    List Row → Nat → LinkSt → List Row → Except TblErr (List Row)
  | [], _, _, acc => .ok acc
  | r :: rs, i, st, acc =>
    match linkRow rows numCol i r st with
    | .error e => .error e
    | .ok (st2, lr) => linkRowsLoop rows numCol rs (i + 1) st2 (acc ++ [lr])

/-- The linking computation on the raw rows: matrix initialised to -1
everywhere, empty `link_indices`, then the row loop. -/
def linkRowsOfRows (rows : List Row) : Except TblErr (List Row) :=
  let numCol := get_num_of_columns { rows := rows, rows_linked := none }
  let m0 : List (List Int) := List.replicate rows.length (List.replicate numCol (-1))
  linkRowsLoop rows numCol rows 0 { m := m0, link_indices := [] } []

/-- Embedding of `Table.setup_linked_rows`: it reads `self.rows`, computes
the linked rows, and assigns `self.rows_linked`; the raw rows are not
touched. -/
def setup_linked_rows (t : Table) : Except TblErr Table :=
  (linkRowsOfRows t.rows).map (fun lrs => { rows := t.rows, rows_linked := some lrs })

def tableOpenTok : List Char := "<table".data
def tableCloseTok : List Char := "/table>".data

/-- Embedding of `SECTableReader._extract_raw_table`: the slice of the
input from the first `<table` up to and including the first `/table>`;
either delimiter missing is an assertion failure (`TableNotFound`). -/
def extract_raw_table (expr : List Char) : Except TblErr (List Char) :=
  match strFind expr tableOpenTok with
  | none => .error .tableNotFound
  | some s =>
    match strFind expr tableCloseTok with
    | none => .error .tableNotFound
    | some e => .ok ((expr.take (e + tableCloseTok.length)).drop s)

/-- Tokens delivered by Python's `html.parser.HTMLParser` to its handler
methods: start tags with their attribute list, end tags, and character
data. -/
inductive HtmlTok where
  | startTag (tag : List Char) (attrs : List (List Char × Option (List Char)))
  | endTag (tag : List Char)
  | dataTok (text : List Char)
deriving DecidableEq, Repr

/-- Character allowed in a tag name by the tolerant tag regex of
`html.parser` (anything but whitespace, `/`, `>` and NUL). -/
def isTagNameChar (c : Char) : Bool :=
  !(c == '\t' || c == '\n' || c == '\r' || c == '\x0c' || c == ' ' || c == '/' ||
    c == '>' || c == '\x00')

/-- Character allowed in an attribute name by the tolerant attribute regex
of `html.parser` (anything but whitespace, `/`, `=` and `>`). -/
def isAttrNameChar (c : Char) : Bool :=
  !(isPySpace c || c == '/' || c == '=' || c == '>')

def toLowerList (s : List Char) : List Char := s.map Char.toLower

/-- Attribute scanning of `html.parser` inside a start tag (tolerant rules,
for fragments without comments, entity references or broken markup as fed
to `RawTableCleaner`): skip whitespace and `/`; stop past `>`; otherwise
read an attribute name, then an optional `=`-separated value, quoted or
bare.  Returns the attributes and the text after the closing `>`. -/
def parseAttrs : Nat → List Char →
    List (List Char × Option (List Char)) × List Char
  | 0, s => ([], s)
  | fuel + 1, s =>
    let s1 := s.dropWhile (fun c => isPySpace c || c == '/')
    match s1 with
    | [] => ([], [])
    | c :: tl =>
      if c = '>' then ([], tl)
      else
        let name := (c :: tl).takeWhile isAttrNameChar
        if name = [] then parseAttrs fuel tl
        else
          let rest := (c :: tl).drop name.length
          let rest2 := rest.dropWhile isPySpace
          match rest2 with
          | '=' :: tl2 =>
            let v := (tl2.dropWhile (· = '=')).dropWhile isPySpace
            match v with
            | '"' :: vr =>
              let val := vr.takeWhile (· ≠ '"')
              let (as2, r2) := parseAttrs fuel (vr.drop (val.length + 1))
              ((toLowerList name, some val) :: as2, r2)
            | '\'' :: vr =>
              let val := vr.takeWhile (· ≠ '\'')
              let (as2, r2) := parseAttrs fuel (vr.drop (val.length + 1))
              ((toLowerList name, some val) :: as2, r2)
            | _ =>
              let val := v.takeWhile (fun c => !(isPySpace c || c == '>'))
              let (as2, r2) := parseAttrs fuel (v.drop val.length)
              ((toLowerList name, some val) :: as2, r2)
          | _ =>
            let (as2, r2) := parseAttrs fuel rest2
            ((toLowerList name, none) :: as2, r2)

/-- Tokenization of `html.parser` for the fragment class the cleaner is fed
(tags and plain text; no comments, declarations, entity references or
script/style content): a maximal `<`-free run is one data token; `</name…>`
is an end tag; `<letter…>` is a start tag with attributes; tag and
attribute names are lowercased. -/
def tokenizeAux : Nat → List Char → List HtmlTok
  | 0, _ => []
  | _, [] => []
  | fuel + 1, '<' :: tl =>
    match tl with
    | [] => [.dataTok ['<']]
    | '/' :: tl2 =>
      let name := tl2.takeWhile isTagNameChar
      let rest := (tl2.drop name.length).dropWhile (· ≠ '>')
      .endTag (toLowerList name) :: tokenizeAux fuel (rest.drop 1)
    | c :: _ =>
      if c.isAlpha then
        let name := tl.takeWhile isTagNameChar
        let rest := tl.drop name.length
        let (attrs, rest2) := parseAttrs (rest.length + 1) rest
        .startTag (toLowerList name) attrs :: tokenizeAux fuel rest2
      else .dataTok ['<'] :: tokenizeAux fuel tl
  | fuel + 1, c :: tl =>
    let d := (c :: tl).takeWhile (· ≠ '<')
    .dataTok d :: tokenizeAux fuel ((c :: tl).drop d.length)

def tokenizeHtml (s : List Char) : List HtmlTok :=
  tokenizeAux s.length s

/-- Embedding of `RawTableCleaner._get_attribute_dic`: the attribute pairs
as a Python dict — insertion order, a duplicate key keeping its first
position with the last value. -/
def get_attribute_dic (attrs : List (List Char × Option (List Char))) :
    List (List Char × Option (List Char)) :=
  attrs.foldl (fun d kv =>
    if d.any (fun p => p.1 = kv.1) then
      d.map (fun p => if p.1 = kv.1 then (p.1, kv.2) else p)
    else d ++ [kv]) []

/-- Rendering of `' {}:{} '.format(att, value)` — a `None` value prints as
the text `None`. -/
def attrValueStr : Option (List Char) → List Char
  | some v => v
  | none => "None".data

def trTdTh : List (List Char) := ["td".data, "tr".data, "th".data]

/-- Embedding of `RawTableCleaner.handle_starttag`: keep only `td`, `tr`,
`th` tags and rewrite their `rowspan`/`colspan` attributes as the token
` name:value `. -/
def handle_starttag (tbl : List Char) (tag : List Char)
    (attrs : List (List Char × Option (List Char))) : List Char :=
  if trTdTh.contains tag then
    let d := get_attribute_dic attrs
    let attrStr := d.foldl (fun s p =>
      if p.1 = "rowspan".data ∨ p.1 = "colspan".data then
        s ++ [' '] ++ p.1 ++ [':'] ++ attrValueStr p.2 ++ [' ']
      else s) []
    tbl ++ ['<'] ++ tag ++ attrStr ++ ['>']
  else tbl

/-- Embedding of `RawTableCleaner.handle_endtag`. -/
def handle_endtag (tbl : List Char) (tag : List Char) : List Char :=
  if trTdTh.contains tag then tbl ++ "</".data ++ tag ++ ['>'] else tbl

/-- Embedding of `RawTableCleaner.handle_data`: keep the data verbatim when
its stripped form is non-empty. -/
def handle_data (tbl : List Char) (d : List Char) : List Char :=
  if (pyStrip d).length > 0 then tbl ++ d else tbl

/-- Feeding a fragment through `RawTableCleaner` (the spec's
`NormalizeTags`): tokenize and run the three handlers over the tokens,
accumulating the `table` member. -/
def cleanFeed (s : List Char) : List Char :=
  (tokenizeHtml s).foldl (fun tbl tok =>
    match tok with
    | .startTag n a => handle_starttag tbl n a
    | .endTag n => handle_endtag tbl n
    | .dataTok d => handle_data tbl d) []

/-- Embedding of `SECTableReader._remove_unnecessary_tags`: extract the raw
table then clean it. -/
def remove_unnecessary_tags (raw : List Char) : Except TblErr (List Char) :=
  (extract_raw_table raw).map cleanFeed

/-! Concrete tables used by the scenario claims. -/

/-- Scenario A markup. -/
def scenarioAStr : List Char :=
  "<table><tr><td>A</td><td rowspan:2>B</td></tr><tr><td>C</td></tr></table>".data

def cellA : Cell := { data := some ['A'] }
def cellB : Cell := { row_span := 2, data := some ['B'] }
def cellC : Cell := { data := some ['C'] }

/-- The parsed raw rows of scenario A. -/
def scenarioATable : Table := { rows := [{ cells := [cellA, cellB] }, { cells := [cellC] }] }

theorem scenarioA_parses : read_tablecontent {} scenarioAStr = .ok scenarioATable := by
  rfl

/-- Scenario B markup: two columns, second row has a single 1-span cell and
no cell spanning into it. -/
def scenarioBStr : List Char :=
  "<table><tr><td>A</td><td>B</td></tr><tr><td>C</td></tr></table>".data

/-- The result of parsing and linking scenario A. -/
def scenarioALinked : Except TblErr Table :=
  (read_tablecontent {} scenarioAStr).bind setup_linked_rows

/-- C1, counterexample: on scenario A the code produces linked row 1 with
the owning cell "C" only — it does not emit the linked placeholder for the
trailing `LinkedTo` column, so the claimed value of linked row 1 (owning
"C" followed by a placeholder linking to row 0, column 1) is not produced. -/
theorem claim_C1_counterexample :
    scenarioALinked.map (fun t => t.rows_linked) =
      .ok (some [{ cells := [cellA, cellB] }, { cells := [cellC] }]) ∧
    scenarioALinked.map (fun t => t.rows_linked) ≠
      .ok (some [{ cells := [cellA, cellB] },
                 { cells := [cellC, link_to_cell cellB (0, 1)] }]) := by
  exact ⟨by rfl, by decide⟩

/-- C1, amended: after parsing and linking scenario A, linked row 0 is the
two owning cells "A" and "B" (the latter with row_span 2), and linked row 1
is the single owning cell "C": while walking a raw row, only a `LinkedTo`
state at the row's first grid column yields an emitted linked placeholder
(at most one, at the head); every other `LinkedTo` column and every
`Continuation` column is skipped silently. -/
theorem claim_C1_amended :
    scenarioALinked =
      .ok { rows := [{ cells := [cellA, cellB] }, { cells := [cellC] }],
            rows_linked := some [{ cells := [cellA, cellB] }, { cells := [cellC] }] } := by
  rfl

/-! Length behaviour of the linker. -/

theorem processCell_length {rows : List Row} {numCol i j : Nat} {cell : Cell}
    {st : LinkSt} {indCol : Nat} {acc : List Cell} {st' : LinkSt} {ind' : Nat}
    {acc' : List Cell}
    (h : processCell rows numCol i j cell st indCol acc = .ok (st', ind', acc')) :
    acc'.length = acc.length + 1 := by
  unfold processCell at h
  dsimp only at h
  split at h
  · exact absurd h (by simp)
  · split at h
    · exact absurd h (by simp)
    · split at h
      · exact absurd h (by simp)
      · injection h with h2
        injection h2 with _ h3
        injection h3 with _ h4
        subst h4
        simp

theorem processCells_length {rows : List Row} {numCol i : Nat} :
    ∀ (cs : List Cell) (j : Nat) (st : LinkSt) (indCol : Nat) (acc : List Cell)
      {st' : LinkSt} {ind' : Nat} {acc' : List Cell},
      processCells rows numCol i cs j st indCol acc = .ok (st', ind', acc') →
      acc'.length = acc.length + cs.length := by
  intro cs
  induction cs with
  | nil =>
    intro j st indCol acc st' ind' acc' h
    injection h with h2
    injection h2 with _ h3
    injection h3 with _ h4
    subst h4
    simp
  | cons c cs ih =>
    intro j st indCol acc st' ind' acc' h
    unfold processCells at h
    split at h
    · exact absurd h (by simp)
    · rename_i st2 ind2 acc2 heq
      have h1 := processCell_length heq
      have h2 := ih _ _ _ _ h
      simp only [List.length_cons]
      omega

theorem linkRowCore_length {rows : List Row} {numCol i : Nat} {row_i : Row}
    {st : LinkSt} {st' : LinkSt} {ind' : Nat} {cells : List Cell}
    (h : linkRowCore rows numCol i row_i st = .ok (st', ind', cells)) :
    ∃ k, k ≤ 1 ∧ cells.length = row_i.cells.length + k := by
  unfold linkRowCore at h
  dsimp only at h
  split at h
  · exact absurd h (by simp)
  · rename_i headCells heq
    have hlen := processCells_length _ _ _ _ _ h
    refine ⟨headCells.length, ?_, by omega⟩
    split at heq
    · exact absurd heq (by simp)
    · rename_i v hv
      split at heq
      · split at heq
        · exact absurd heq (by simp)
        · injection heq with h2; subst h2; simp
      · injection heq with h2; subst h2; simp

theorem linkRow_length {rows : List Row} {numCol i : Nat} {row_i : Row}
    {st : LinkSt} {st' : LinkSt} {r : Row}
    (h : linkRow rows numCol i row_i st = .ok (st', r)) :
    ∃ k, k ≤ 1 ∧ r.cells.length = row_i.cells.length + k := by
  unfold linkRow at h
  split at h
  · exact absurd h (by simp)
  · rename_i st2 indF cells heq
    split at h
    · injection h with h2
      injection h2 with _ h3
      subst h3
      exact linkRowCore_length heq
    · exact absurd h (by simp)

theorem linkRowsLoop_spec {rows : List Row} {numCol : Nat} :
    ∀ (rs : List Row) (i : Nat) (st : LinkSt) (acc : List Row) {lrs : List Row},
      linkRowsLoop rows numCol rs i st acc = .ok lrs →
      ∃ newRows, lrs = acc ++ newRows ∧
        List.Forall₂ (fun lr r => ∃ k, k ≤ 1 ∧
          lr.cells.length = r.cells.length + k) newRows rs := by
  intro rs
  induction rs with
  | nil =>
    intro i st acc lrs h
    injection h with h2
    subst h2
    exact ⟨[], by simp, List.Forall₂.nil⟩
  | cons r rs ih =>
    intro i st acc lrs h
    unfold linkRowsLoop at h
    split at h
    · exact absurd h (by simp)
    · rename_i st2 lr heq
      obtain ⟨newRows, hEq, hF⟩ := ih _ _ _ h
      obtain ⟨k, hk, hlen⟩ := linkRow_length heq
      exact ⟨lr :: newRows, by simpa using hEq, List.Forall₂.cons ⟨k, hk, hlen⟩ hF⟩

/-- C2, counterexample: scenario A has `ColumnCount = 2` but its second
linked row has a single cell, so not every linked row has exactly
`num_columns` cells. -/
theorem claim_C2_counterexample :
    get_num_of_columns scenarioATable = 2 ∧
    (linkRowsOfRows scenarioATable.rows).map (fun lrs => lrs.map (fun r => r.cells.length)) =
      .ok [2, 1] ∧ (1 : Nat) ≠ 2 :=
  ⟨rfl, rfl, by decide⟩

/-- C2, amended: for every table that links without error, each linked row
consists of the raw row's own cells plus at most one linked placeholder
(its cell count is the raw row's cell count plus some k ≤ 1); the count is
not in general `num_columns`, since non-leading spanned-into columns get no
cell. -/
theorem claim_C2_amended (rows : List Row) (lrs : List Row)
    (h : linkRowsOfRows rows = .ok lrs) :
    List.Forall₂ (fun lr r => ∃ k, k ≤ 1 ∧ lr.cells.length = r.cells.length + k)
      lrs rows := by
  unfold linkRowsOfRows at h
  obtain ⟨newRows, hEq, hF⟩ := linkRowsLoop_spec _ _ _ _ h
  simpa [hEq] using hF

theorem claim_C2_amended_witness :
    List.Forall₂ (fun lr r => ∃ k, k ≤ 1 ∧ lr.cells.length = r.cells.length + k)
      ([{ cells := [cellA, cellB] }, { cells := [cellC] }] : List Row)
      scenarioATable.rows :=
  claim_C2_amended scenarioATable.rows _ (by rfl)

/-- The raw rows of scenario B. -/
def cellB1 : Cell := { data := some ['B'] }

def scenarioBTable : Table := { rows := [{ cells := [cellA, cellB1] }, { cells := [cellC] }] }

theorem scenarioB_parses : read_tablecontent {} scenarioBStr = .ok scenarioBTable := by
  rfl

/-- C3: a raw row is accepted exactly when the column cursor equals
`num_columns` after all of its own cells are consumed — otherwise the row
loop fails with `ColumnMismatch` and no linked row is produced; in
particular linking scenario B (whose second row's `col_span` sum is 1 with
a declared width of 2 and nothing spanning into it) fails with
`ColumnMismatch`. -/
theorem claim_C3 :
    (∀ (rows : List Row) (numCol i : Nat) (row_i : Row) (st : LinkSt)
       (st2 : LinkSt) (indF : Nat) (cells : List Cell),
       linkRowCore rows numCol i row_i st = .ok (st2, indF, cells) →
       (indF = numCol → linkRow rows numCol i row_i st = .ok (st2, { cells := cells })) ∧
       (indF ≠ numCol → linkRow rows numCol i row_i st = .error .columnMismatch)) ∧
    (read_tablecontent {} scenarioBStr).bind setup_linked_rows = .error .columnMismatch := by
  constructor
  · intro rows numCol i row_i st st2 indF cells h
    constructor <;> intro hc <;> unfold linkRow <;> rw [h] <;> simp [hc]
  · rfl

theorem claim_C3_witness :
    linkRow scenarioBTable.rows 2 1 { cells := [cellC] }
      { m := [[-1, -1], [-1, -1]], link_indices := [] } = .error .columnMismatch :=
  (claim_C3.1 scenarioBTable.rows 2 1 { cells := [cellC] }
      { m := [[-1, -1], [-1, -1]], link_indices := [] }
      { m := [[-1, -1], [-1, -1]], link_indices := [] } 1 [cellC] (by rfl)).2 (by decide)

theorem foldl_colspan (cs : List Cell) :
    ∀ a, cs.foldl (fun acc c => acc + c.col_span) a = a + (cs.map Cell.col_span).sum := by
  induction cs with
  | nil => intro a; simp
  | cons c cs ih =>
    intro a
    simp only [List.foldl_cons, List.map_cons, List.sum_cons, ih]
    omega

/-- C4: the column count is the sum of `col_span` over the first row's
cells, and 0 for a table without rows, in which case linking succeeds and
assigns an empty list of linked rows. -/
theorem claim_C4 (t : Table) :
    (t.rows = [] → get_num_of_columns t = 0 ∧
      setup_linked_rows t = .ok { rows := t.rows, rows_linked := some [] }) ∧
    (∀ r rest, t.rows = r :: rest →
      get_num_of_columns t = (r.cells.map Cell.col_span).sum) := by
  constructor
  · intro h
    constructor
    · unfold get_num_of_columns
      rw [h]
    · unfold setup_linked_rows linkRowsOfRows
      rw [h]
      rfl
  · intro r rest h
    unfold get_num_of_columns
    rw [h]
    simpa using foldl_colspan r.cells 0

theorem claim_C4_witness :
    (get_num_of_columns { rows := [], rows_linked := none } = 0 ∧
      setup_linked_rows { rows := [], rows_linked := none } =
        .ok { rows := [], rows_linked := some [] }) ∧
    get_num_of_columns scenarioATable = ([cellA, cellB].map Cell.col_span).sum :=
  ⟨(claim_C4 { rows := [], rows_linked := none }).1 rfl,
   (claim_C4 scenarioATable).2 { cells := [cellA, cellB] } [{ cells := [cellC] }] rfl⟩

/-- A successful `setup_linked_rows` call returns the input raw rows with
the computed linked rows assigned. -/
theorem setup_ok_shape {t t' : Table} (h : setup_linked_rows t = .ok t') :
    ∃ lrs, linkRowsOfRows t.rows = .ok lrs ∧
      t' = { rows := t.rows, rows_linked := some lrs } := by
  unfold setup_linked_rows at h
  cases hl : linkRowsOfRows t.rows with
  | error e => rw [hl] at h; exact absurd h (by simp [Except.map])
  | ok lrs =>
    rw [hl] at h
    simp only [Except.map] at h
    injection h with h2
    exact ⟨lrs, rfl, h2.symm⟩

/-- The table obtained by linking scenario A. -/
def scenarioALinkedTable : Table :=
  { rows := [{ cells := [cellA, cellB] }, { cells := [cellC] }],
    rows_linked := some [{ cells := [cellA, cellB] }, { cells := [cellC] }] }

/-- C10: linking never modifies the raw rows — on success the resulting
table keeps `rows` unchanged (hence every raw row's cell count and every
raw cell's fields) and only `rows_linked` is assigned (to the computed
linked rows). -/
theorem claim_C10 (t t' : Table) (h : setup_linked_rows t = .ok t') :
    t'.rows = t.rows ∧ ∃ lrs, t' = { rows := t.rows, rows_linked := some lrs } := by
  obtain ⟨lrs, _, ht⟩ := setup_ok_shape h
  subst ht
  exact ⟨rfl, lrs, rfl⟩

theorem claim_C10_witness :
    (scenarioALinkedTable.rows = scenarioATable.rows ∧
      ∃ lrs, scenarioALinkedTable =
        { rows := scenarioATable.rows, rows_linked := some lrs }) :=
  claim_C10 scenarioATable scenarioALinkedTable (by rfl)

/-- C9: linking is idempotent — if linking a table succeeds, linking the
resulting table again succeeds and returns it unchanged (the computation
reads only the raw rows, which a successful call leaves intact). -/
theorem claim_C9 (t t' : Table) (h : setup_linked_rows t = .ok t') :
    setup_linked_rows t' = .ok t' := by
  obtain ⟨lrs, hl, ht⟩ := setup_ok_shape h
  subst ht
  unfold setup_linked_rows
  dsimp only
  rw [hl]
  rfl

theorem claim_C9_witness :
    setup_linked_rows scenarioALinkedTable = .ok scenarioALinkedTable :=
  claim_C9 scenarioATable scenarioALinkedTable (by rfl)

/-! Correctness of `strFind` with respect to the occurrence predicates. -/

theorem strFind_some_occurs :
    ∀ {s pat : List Char} {i : Nat}, strFind s pat = some i → occursAt s pat i := by
  intro s
  induction s with
  | nil =>
    intro pat i h
    unfold strFind at h
    split at h
    · rename_i hp
      injection h with h2
      subst h2
      subst hp
      rfl
    · exact absurd h (by simp)
  | cons c tl ih =>
    intro pat i h
    unfold strFind at h
    split at h
    · rename_i hp
      injection h with h2
      subst h2
      exact hp
    · cases hf : strFind tl pat with
      | none => rw [hf] at h; exact absurd h (by simp)
      | some i' =>
        rw [hf] at h
        simp only [Option.map] at h
        injection h with h2
        subst h2
        unfold occursAt
        rw [List.drop_succ_cons]
        exact ih hf

theorem strFind_some_least :
    ∀ {s pat : List Char} {i : Nat}, strFind s pat = some i →
      ∀ k, k < i → ¬ occursAt s pat k := by
  intro s
  induction s with
  | nil =>
    intro pat i h k hk
    unfold strFind at h
    split at h
    · injection h with h2; omega
    · exact absurd h (by simp)
  | cons c tl ih =>
    intro pat i h k hk
    unfold strFind at h
    split at h
    · injection h with h2; omega
    · rename_i hp
      cases hf : strFind tl pat with
      | none => rw [hf] at h; exact absurd h (by simp)
      | some i' =>
        rw [hf] at h
        simp only [Option.map] at h
        injection h with h2
        subst h2
        cases k with
        | zero => exact fun hocc => hp hocc
        | succ k' =>
          intro hocc
          unfold occursAt at hocc
          rw [List.drop_succ_cons] at hocc
          exact ih hf k' (by omega) hocc

theorem strFind_none :
    ∀ {s pat : List Char}, strFind s pat = none → ∀ i, ¬ occursAt s pat i := by
  intro s
  induction s with
  | nil =>
    intro pat h i hocc
    unfold strFind at h
    split at h
    · exact absurd h (by simp)
    · rename_i hp
      unfold occursAt at hocc
      rw [List.drop_nil, List.isPrefixOf_iff_prefix] at hocc
      exact hp (List.prefix_nil.mp hocc)
  | cons c tl ih =>
    intro pat h i hocc
    unfold strFind at h
    split at h
    · exact absurd h (by simp)
    · rename_i hp
      cases hf : strFind tl pat with
      | some i' => rw [hf] at h; exact absurd h (by simp)
      | none =>
        cases i with
        | zero => exact hp hocc
        | succ i' =>
          unfold occursAt at hocc
          rw [List.drop_succ_cons] at hocc
          exact ih hf i' hocc

theorem strFind_of_not_occurs {s pat : List Char}
    (h : ∀ i, ¬ occursAt s pat i) : strFind s pat = none := by
  cases hf : strFind s pat with
  | none => rfl
  | some i => exact absurd (strFind_some_occurs hf) (h i)

theorem strFind_eq_first {s pat : List Char} {i : Nat}
    (h : isFirstOccurrence s pat i) : strFind s pat = some i := by
  cases hf : strFind s pat with
  | none => exact absurd h.1 (strFind_none hf i)
  | some i' =>
    have h1 := strFind_some_occurs hf
    have h2 := strFind_some_least hf
    rcases Nat.lt_trichotomy i i' with hlt | heq | hgt
    · exact absurd h.1 (h2 i hlt)
    · rw [heq]
    · exact absurd h1 (h.2 i' hgt)

/-- For a nonempty pattern, positions at or beyond the end of the string
never carry an occurrence, so checking all in-range positions suffices. -/
theorem not_occurs_of_bounded {s pat : List Char} (hp : pat ≠ [])
    (h : ∀ i, i < s.length → ¬ occursAt s pat i) : ∀ i, ¬ occursAt s pat i := by
  intro i hocc
  by_cases hi : i < s.length
  · exact h i hi hocc
  · unfold occursAt at hocc
    rw [List.drop_eq_nil_of_le (by omega), List.isPrefixOf_iff_prefix] at hocc
    exact hp (List.prefix_nil.mp hocc)

/-- C6: `_extract_raw_table` returns exactly the slice of the fragment from
the first occurrence of `<table` through the end of the first occurrence of
`/table>`, and fails with `TableNotFound` whenever either delimiter is
absent. -/
theorem claim_C6 (expr : List Char) :
    (∀ i j, isFirstOccurrence expr tableOpenTok i →
      isFirstOccurrence expr tableCloseTok j →
      extract_raw_table expr = .ok ((expr.take (j + tableCloseTok.length)).drop i)) ∧
    (((∀ i, ¬ occursAt expr tableOpenTok i) ∨ (∀ j, ¬ occursAt expr tableCloseTok j)) →
      extract_raw_table expr = .error .tableNotFound) := by
  constructor
  · intro i j hi hj
    unfold extract_raw_table
    rw [strFind_eq_first hi, strFind_eq_first hj]
  · intro hmiss
    unfold extract_raw_table
    cases hmiss with
    | inl hopen => rw [strFind_of_not_occurs hopen]
    | inr hclose =>
      rw [strFind_of_not_occurs hclose]
      cases strFind expr tableOpenTok <;> rfl

theorem claim_C6_witness :
    extract_raw_table "a<table>x/table>b".data =
      .ok (("a<table>x/table>b".data.take (9 + tableCloseTok.length)).drop 1) ∧
    extract_raw_table "no table here".data = .error .tableNotFound :=
  ⟨(claim_C6 "a<table>x/table>b".data).1 1 9 (by decide) (by decide),
   (claim_C6 "no table here".data).2
     (Or.inl (not_occurs_of_bounded (by decide) (by decide)))⟩

/-- C7: when parsing one cell's markup, `rowspan` and `colspan` default to
1 when absent; a present span with a non-numeric value or a value below 1
fails with `InvalidSpan`; the cell kind is `Header` exactly for `th` tags
(`Normal` for `td`); and the content is the stripped text after the first
`>` of the cell markup. -/
theorem claim_C7 :
    (∀ s : List Char, (∀ i, ¬ occursAt s rowspanTok i) →
      (∀ i, ¬ occursAt s colspanTok i) → get_span_options s = .ok (1, 1)) ∧
    get_span_options " rowspan:x>".data = .error .invalidSpan ∧
    get_span_options " rowspan:0>".data = .error .invalidSpan ∧
    get_span_options " rowspan:-2>".data = .error .invalidSpan ∧
    (∀ (content : List Char) (ctype : CellType) (c : Cell),
      build_cell content ctype = .ok c →
      c.type = ctype ∧ ∃ k, strFind content ['>'] = some k ∧
        c.data = some (pyStrip (content.drop (k + 1)))) ∧
    htmlrow_to_rowobj "<tr><th>H</th><td> x y </td></tr>".data = .ok
      { cells := [
          { type := .HEADER, row_span := 1, col_span := 1,
            data := some "H".data, linked_cell := none },
          { type := .NORMAL, row_span := 1, col_span := 1,
            data := some "x y".data, linked_cell := none }] } := by
  refine ⟨?_, by rfl, by rfl, by rfl, ?_, by rfl⟩
  · intro s h1 h2
    have hf1 := strFind_of_not_occurs h1
    have hf2 := strFind_of_not_occurs h2
    unfold get_span_options get_span_one
    rw [hf1, hf2]
    rfl
  · intro content ctype c h
    unfold build_cell at h
    cases hso : get_span_options content with
    | error e => rw [hso] at h; exact absurd h (by simp [Bind.bind, Except.bind])
    | ok rc =>
      rw [hso] at h
      simp only [Bind.bind, Except.bind] at h
      cases hk : strFind content ['>'] with
      | none => rw [hk] at h; exact absurd h (by simp [Bind.bind, Except.bind])
      | some k =>
        rw [hk] at h
        simp only [Pure.pure, Except.pure] at h
        injection h with h2
        subst h2
        exact ⟨rfl, k, rfl, rfl⟩

theorem claim_C7_witness :
    get_span_options "plain cell>".data = .ok (1, 1) ∧
    (({ type := .HEADER, data := some "H".data } : Cell).type = CellType.HEADER ∧
      ∃ k, strFind ">H".data ['>'] = some k ∧
        ({ type := .HEADER, data := some "H".data } : Cell).data =
          some (pyStrip (">H".data.drop (k + 1)))) :=
  ⟨claim_C7.1 "plain cell>".data
      (not_occurs_of_bounded (by decide) (by decide))
      (not_occurs_of_bounded (by decide) (by decide)),
   claim_C7.2.2.2.2.1 ">H".data .HEADER _ (by rfl)⟩

/-- C5, counterexample: for the same span value 2, the row/cell parser
extracts 2 from the filtered canonical token form `rowspan:2` but 1 (the
default) from the raw-HTML attribute form `rowspan="2"` — the two forms do
not produce the same span values at the parser. -/
theorem claim_C5_counterexample :
    get_span_options " rowspan:2>x".data = .ok (2, 1) ∧
    get_span_options " rowspan=\"2\">x".data = .ok (1, 1) ∧ (2 : Nat) ≠ 1 :=
  ⟨rfl, rfl, by decide⟩

/-- C5, amended: the row/cell parser extracts spans only from the filtered
canonical token form `rowspan:N`/`colspan:N`; the raw-HTML attribute form
`rowspan="N"` is not recognised there and yields the default 1.  The two
forms agree only through the markup filter, which rewrites the raw
attribute into the canonical token before parsing. -/
theorem claim_C5_amended :
    cleanFeed "<td rowspan=\"2\">x</td>".data = "<td rowspan:2 >x</td>".data ∧
    htmlrow_to_rowobj "<tr><td rowspan:2 >x</td></tr>".data = .ok
      { cells := [{ type := .NORMAL, row_span := 2, col_span := 1,
                    data := some ['x'], linked_cell := none }] } ∧
    htmlrow_to_rowobj "<tr><td rowspan=\"2\">x</td></tr>".data = .ok
      { cells := [{ type := .NORMAL, row_span := 1, col_span := 1,
                    data := some ['x'], linked_cell := none }] } :=
  ⟨rfl, rfl, rfl⟩

/-- C8, counterexample: the tag-normalization filter is not idempotent — on
`<td rowspan="2">x</td>` the first pass yields `<td rowspan:2 >x</td>`, and
a second pass yields `<td>x</td>` (the canonical token re-parses as an
attribute named `rowspan:2`, which the filter drops), not the first pass's
output. -/
theorem claim_C8_counterexample :
    cleanFeed (cleanFeed "<td rowspan=\"2\">x</td>".data) ≠
      cleanFeed "<td rowspan=\"2\">x</td>".data := by
  decide

/-- C8, amended: a second pass of the filter preserves the retained
`tr`/`td`/`th` tags and the text between tags but drops the canonical
`rowspan`/`colspan` tokens, so the filter is idempotent only on fragments
whose retained tags carry no span attributes: on `<td rowspan="2">x</td>`
the passes give `<td rowspan:2 >x</td>` then `<td>x</td>`, while on the
span-free `<table><tr><td>A</td><th>B</th></tr></table>` the first pass
gives `<tr><td>A</td><th>B</th></tr>` and the second pass returns that
output unchanged. -/
theorem claim_C8_amended :
    cleanFeed "<td rowspan=\"2\">x</td>".data = "<td rowspan:2 >x</td>".data ∧
    cleanFeed "<td rowspan:2 >x</td>".data = "<td>x</td>".data ∧
    cleanFeed "<table><tr><td>A</td><th>B</th></tr></table>".data =
      "<tr><td>A</td><th>B</th></tr>".data ∧
    cleanFeed "<tr><td>A</td><th>B</th></tr>".data =
      "<tr><td>A</td><th>B</th></tr>".data :=
  ⟨rfl, rfl, rfl, rfl⟩

end FinAnalyzer
